import Mathlib

/-!
Shallow embedding of the storagegrid terraform provider client layer
(`internal/utils`): the request executor, bucket list cache, delete-timeout
reconciler, temporary S3 credential manager, and the JSON adapters
(StringOrSlice, DefaultRetentionSetting), together with theorems about the
specified behaviour.  Network interactions are modelled by an environment
record of oracles: each operation returns its result, the updated client
state, and the trace of HTTP calls it issued.
-/

/-! ## String utilities (Go strings.Contains / strings.Replace / strconv.Atoi) -/

/-- Bool test that the second list is a leading segment of the first,
mirroring how Go substring search matches at a position. -/
def charsStartsWith : List Char → List Char → Bool
  | _, [] => true
  | [], _ :: _ => false
  | a :: as, b :: bs => a == b && charsStartsWith as bs

/-- Embedding of Go strings.Contains on rune lists: the needle occurs
somewhere in the haystack. -/
def charsContains : List Char → List Char → Bool
  | [], needle => needle.isEmpty
  | h :: t, needle => charsStartsWith (h :: t) needle || charsContains t needle

/-- Index of the first occurrence of the needle, none if absent. -/
def charsFirstIndex : List Char → List Char → Option Nat
  | [], needle => if needle.isEmpty then some 0 else none
  | h :: t, needle =>
    if charsStartsWith (h :: t) needle then some 0
    else (charsFirstIndex t needle).map (· + 1)

/-- Embedding of Go strings.Replace(s, old, new, 1): replace the first
occurrence of old by new, leaving s unchanged when old does not occur. -/
def replaceFirstChars (old new : List Char) : List Char → List Char
  | [] => if old.isEmpty then new else []
  | h :: t =>
    if charsStartsWith (h :: t) old then new ++ (h :: t).drop old.length
    else h :: replaceFirstChars old new t

/-- Go strings.Contains at the String level. -/
def strContains (s sub : String) : Bool :=
  charsContains s.data sub.data

/-- Go strings.Replace(s, old, new, 1) at the String level. -/
def strReplaceFirst (s old new : String) : String :=
  String.mk (replaceFirstChars old.data new.data s.data)

/-- Embedding of Go strconv.Atoi restricted to the signed decimal forms the
code can meet; failure is none. -/
def goAtoi (s : String) : Option Int :=
  s.toInt?

/-! ## JSON values

Abstract syntax of the JSON documents exchanged with the management API.
Numbers are modelled as integers, which covers every number the embedded
marshalers emit. -/

inductive Json where
  | jnull : Json
  | jbool (b : Bool) : Json
  | jnum (n : Int) : Json
  | jstr (s : String) : Json
  | jarr (elems : List Json) : Json
  | jobj (fields : List (String × Json)) : Json

/-- Field lookup in a JSON object; later duplicates win, matching the
behaviour of encoding/json when decoding duplicate keys. -/
def jsonLookup : List (String × Json) → String → Option Json
  | [], _ => none
  | (k, v) :: rest, key =>
    match jsonLookup rest key with
    | some w => some w
    | none => if k == key then some v else none

/-! ## Errors

Go errors are values carrying a rendered message.  The sentinel
context.DeadlineExceeded and net.Error values with a true Timeout method are
distinguished constructors because isTimeoutError tests for them by identity
and by type assertion; an error produced by fmt.Errorf (wrapping included)
renders to a plain message and loses both properties, as in Go. -/

inductive GoError where
  | deadlineExceeded : GoError
  | netTimeoutErr (msg : String) : GoError
  | mkError (msg : String) : GoError
deriving Repr, DecidableEq

/-- The text produced by the Error method. -/
def GoError.message : GoError → String
  | .deadlineExceeded => "context deadline exceeded"
  | .netTimeoutErr m => m
  | .mkError m => m

/-! ## Request executor -/

/-- Outcome of HTTPClient.Do followed by io.ReadAll as seen by doRequest:
either a transport failure, or a status code with the result of reading the
body. -/
inductive DoResult where
  | transportErr (e : GoError) : DoResult
  | response (statusCode : Int) (bodyRead : Except GoError String) : DoResult

/-- Embedding of Client.doRequest: surface transport and read errors
verbatim, fail on a status outside [200,300) with an error embedding the
status code and the raw body, and otherwise return the body. -/
def doRequest (r : DoResult) : Except GoError String :=
  match r with
  | .transportErr e => .error e
  | .response statusCode bodyRead =>
    match bodyRead with
    | .error e => .error e
    | .ok body =>
      if statusCode < 200 ∨ statusCode ≥ 300 then
        .error (.mkError ("status: " ++ toString statusCode ++ ", body: " ++ body))
      else
        .ok body

/-! ## Bucket data model (part_000 / part_002 of the source) -/

/-- ComplianceConfig from the source. -/
structure ComplianceConfig where
  AutoDelete : Bool
  LegalHold : Bool
  RetentionPeriodMinutes : Int

/-- DefaultRetentionSetting from the source; the three fields carry the
object lock retention mode and the mutually exclusive day and year counts. -/
structure DefaultRetentionSetting where
  Mode : String
  Days : Int
  Years : Int

/-- S3ObjectLockConfig from the source. -/
structure S3ObjectLockConfig where
  Enabled : Bool
  DefaultRetentionSetting : Option DefaultRetentionSetting

/-- DeleteObjectStatusConfig from the source. -/
structure DeleteObjectStatusConfig where
  IsDeletingObjects : Bool
  InitialObjectCount : String
  InitialObjectBytes : String

/-- CrossGridReplicationConfig from the source; the rules are untyped JSON. -/
structure CrossGridReplicationConfig where
  Rules : List Json

/-- S3BucketData from the source: one bucket record of the management API
bucket inventory. -/
structure S3BucketData where
  Name : String
  CreationTime : String
  Region : String
  Compliance : Option ComplianceConfig
  S3ObjectLock : Option S3ObjectLockConfig
  DeleteStatus : Option DeleteObjectStatusConfig
  Replication : Option CrossGridReplicationConfig

/-! ## DefaultRetentionSetting JSON adapter (claim C3) -/

/-- The anonymous auxiliary struct of DefaultRetentionSetting.UnmarshalJSON:
mode decodes as a string while days and years decode into empty interface
values, so they keep whatever JSON shape arrived (none models a missing
field and a JSON null, both of which leave the interface value nil). -/
structure RetentionAux where
  Mode : String
  Days : Option Json
  Years : Option Json

/-- Base two logarithm on Nat, driven by explicit fuel so that it reduces
in the kernel; fuel n always suffices since the recursion depth is the bit
length of n. -/
def natLog2Aux : Nat → Nat → Nat
  | 0, _ => 0
  | fuel + 1, n => if n ≥ 2 then natLog2Aux fuel (n / 2) + 1 else 0

/-- Floor of the base two logarithm, used to find the binade of a number
and to compare magnitudes against powers of two without evaluating huge
powers. -/
def natLog2 (n : Nat) : Nat :=
  natLog2Aux n n

/-- Round a natural number to the nearest IEEE-754 double (53 bit
significand, round to nearest, ties to even) with an unbounded exponent:
numbers up to 2 to the 53 are exact, and larger ones are rounded to the
nearest multiple of the unit in the last place of their binade, ties going
to the even multiple. -/
def float64RoundPos (n : Nat) : Nat :=
  if n < 2 ^ 53 then n
  else
    let ulp := 2 ^ (natLog2 n - 52)
    let q := n / ulp
    let r := n % ulp
    if 2 * r < ulp then q * ulp
    else if 2 * r > ulp then (q + 1) * ulp
    else if q % 2 = 0 then q * ulp else (q + 1) * ulp

/-- Rounding of an integer to the nearest double, by sign symmetry. -/
def float64RoundInt (n : Int) : Int :=
  if 0 ≤ n then ((float64RoundPos n.toNat : Nat) : Int)
  else -((float64RoundPos (-n).toNat : Nat) : Int)

/-- Decoding of an integral JSON number into an interface value: Go
encoding/json parses the number with strconv.ParseFloat, so the value the
interface holds is the nearest float64, which loses precision beyond 2 to
the 53.  A number overflows the double range, failing the whole unmarshal,
exactly when the significand-rounded magnitude reaches 2 to the 1024; the
guard tests that through the bit length of the rounded value so that the
definition evaluates without computing the huge power. -/
def goNumberToFloat64 (n : Int) : Except GoError Int :=
  if natLog2 (float64RoundInt n).natAbs ≤ 1023 then
    .ok (float64RoundInt n)
  else
    .error (.mkError "json: cannot unmarshal number into Go value of type float64")

/-- Look up an interface-typed field: a JSON null leaves the interface
value nil, a number is parsed into a float64 (failing the decode when it
overflows), and every other value is kept as is.  Numbers nested inside an
array or object field would be rounded the same way, but those shapes are
dropped unread by the coercion switch, so they are kept unrounded here. -/
def retentionIfaceField (fields : List (String × Json)) (key : String) :
    Except GoError (Option Json) :=
  match jsonLookup fields key with
  | none => .ok none
  | some .jnull => .ok none
  | some (.jnum n) =>
    match goNumberToFloat64 n with
    | .ok r => .ok (some (.jnum r))
    | .error e => .error e
  | some v => .ok (some v)

/-- Embedding of json.Unmarshal(data, aux) for the auxiliary struct: the
document must be an object (JSON null is a no-op that leaves the zero
values); a mode field of a non-string type is a decode error; days and
years accept any JSON value, with numbers going through the float64 parse.
The field checks are sequenced days, years, mode; a document making
several fields fail reports one of the errors. -/
def retentionDecodeAux (j : Json) : Except GoError RetentionAux :=
  match j with
  | .jnull => .ok { Mode := "", Days := none, Years := none }
  | .jobj fields =>
    match retentionIfaceField fields "days" with
    | .error e => .error e
    | .ok dayv =>
      match retentionIfaceField fields "years" with
      | .error e => .error e
      | .ok yearv =>
        match jsonLookup fields "mode" with
        | some (.jstr m) => .ok { Mode := m, Days := dayv, Years := yearv }
        | none => .ok { Mode := "", Days := dayv, Years := yearv }
        | some .jnull => .ok { Mode := "", Days := dayv, Years := yearv }
        | some _ => .error (.mkError "json: cannot unmarshal value into Go struct field mode of type string")
  | _ => .error (.mkError "json: cannot unmarshal value into Go value of type struct")

/-- Embedding of the switch on an interface-typed days or years value:
a string goes through strconv.Atoi when non-empty and is dropped silently
when the conversion fails, a number (held as an integral float64 after the
decode above) is truncated to int, and any other shape leaves the previous
value.  The int conversion is exact on the integral doubles inside the
int64 range; beyond it the Go specification leaves the conversion result
implementation-dependent, and the theorems stay inside the exact range. -/
def retentionCoerce (previous : Int) (v : Option Json) : Int :=
  match v with
  | none => previous
  | some (.jstr s) =>
    if s ≠ "" then
      match goAtoi s with
      | some n => n
      | none => previous
    else previous
  | some (.jnum n) => n
  | some _ => previous

/-- Embedding of DefaultRetentionSetting.UnmarshalJSON on a fresh
(zero-valued) receiver. -/
def DefaultRetentionSettingUnmarshalJSON (j : Json) : Except GoError DefaultRetentionSetting :=
  match retentionDecodeAux j with
  | .error e => .error e
  | .ok aux =>
    .ok { Mode := aux.Mode
          Days := retentionCoerce 0 aux.Days
          Years := retentionCoerce 0 aux.Years }

/-- Embedding of DefaultRetentionSetting.MarshalJSON: the auxiliary struct
has pointer-typed days and years fields with omitempty, the years pointer
is set only when Years is positive, and otherwise the days pointer is
always set, so exactly one of the two fields is emitted. -/
def DefaultRetentionSettingMarshalJSON (d : DefaultRetentionSetting) : Json :=
  if d.Years > 0 then
    .jobj [("mode", .jstr d.Mode), ("years", .jnum d.Years)]
  else
    .jobj [("mode", .jstr d.Mode), ("days", .jnum d.Days)]

/-! ## StringOrSlice JSON adapter (claim C4) -/

/-- Embedding of json.Unmarshal(b, single) for a fresh string variable:
a JSON string decodes to itself and a JSON null is a no-op that leaves the
zero value, the empty string; everything else is a decode error. -/
def goUnmarshalAsString (j : Json) : Option String :=
  match j with
  | .jstr s => some s
  | .jnull => some ""
  | _ => none

/-- Elementwise decoding of a JSON array into string slice elements; each
freshly allocated element is zero-valued, so a null element stays empty. -/
def goDecodeStringElems : List Json → Option (List String)
  | [] => some []
  | x :: xs =>
    match goUnmarshalAsString x, goDecodeStringElems xs with
    | some s, some rest => some (s :: rest)
    | _, _ => none

/-- Embedding of json.Unmarshal(b, slice) for a fresh string slice: a JSON
null sets the slice to nil, an array decodes elementwise, everything else
is a decode error. -/
def goUnmarshalAsStringSlice (j : Json) : Option (List String)
  := match j with
  | .jnull => some []
  | .jarr xs => goDecodeStringElems xs
  | _ => none

/-- Embedding of StringOrSlice.UnmarshalJSON: first try to decode a bare
string, then a slice of strings, and fail otherwise. -/
def StringOrSliceUnmarshalJSON (j : Json) : Except GoError (List String) :=
  match goUnmarshalAsString j with
  | some single => .ok [single]
  | none =>
    match goUnmarshalAsStringSlice j with
    | some slice => .ok slice
    | none => .error (.mkError "failed to unmarshal string or slice of strings")

/-- Marshaling direction: StringOrSlice has no MarshalJSON, so Go default
slice encoding applies: a nil slice (modelled as none) is emitted as the
JSON literal null, and every non-nil slice is emitted as a JSON array of
strings.  The decoder above only ever produces non-nil values: the string
branch builds a one-element slice and the slice branch allocates, the null
document having been taken by the string branch. -/
def StringOrSliceMarshalJSON : Option (List String) → Json
  | none => .jnull
  | some s => .jarr (s.map .jstr)

/-! ## Client state, call traces, and the network environment -/

/-- s3AccessKey from the source: the temporary S3 credential. -/
structure s3AccessKey where
  AccessKey : String
  SecretKey : String
  ID : String
deriving Repr, DecidableEq

/-- The data of a minio client as constructed by GetS3Client: the parsed
endpoint host, the static credential pair, and the secure flag. -/
structure MinioClient where
  host : String
  accessKey : String
  secretKey : String
  secure : Bool
deriving Repr, DecidableEq

/-- Client from the source.  The bucket cache keeps the nil versus non-nil
distinction of the Go slice because the cache check tests for nil, and
time is modelled in nanoseconds as in time.Duration, with 0 standing for
the zero time.Time value. -/
structure Client where
  EndpointURL : String
  Token : String
  bucketCache : Option (List S3BucketData)
  bucketCacheTime : Int
  s3Client : Option MinioClient
  s3AccessKey : Option s3AccessKey

/-- One HTTP interaction issued by the client, recorded in the trace of an
operation; JSON request bodies are recorded as abstract JSON documents, and
s3call records one invocation of the operation closure against a minio
client. -/
inductive NetCall where
  | get (url : String) : NetCall
  | post (url : String) (body : Json) : NetCall
  | del (url : String) : NetCall
  | s3call (m : MinioClient) : NetCall

/-- The response of json.Unmarshal for the access key creation response. -/
structure S3AccessKeyResponse where
  ResponseTime : String
  Status : String
  APIVersion : String
  Data : s3AccessKey

/-- S3BucketCreateData from the source. -/
structure S3BucketCreateData where
  Name : String
  Region : String

/-- S3BucketCreateResponse from the source (alert metadata elided to the
JSON it would carry). -/
structure S3BucketCreateResponse where
  ResponseTime : String
  Status : String
  APIVersion : String
  Deprecated : Bool
  Data : S3BucketCreateData
  Metadata : Option Json

/-- AuthResponse from the source: the authorize endpoint returns the bearer
token in the data field. -/
structure AuthResponse where
  ResponseTime : String
  Status : String
  APIVersion : String
  Deprecated : Bool
  Token : String

/-- SignInBody from the source. -/
structure SignInBody where
  AccountID : String
  Username : String
  Password : String
  Cookie : Bool
  CsrfToken : Bool

/-- The host and scheme extracted from url.Parse. -/
structure ParsedURL where
  host : String
  scheme : String

/-- Oracles for everything outside the client code: what the HTTP transport
answers for each endpoint, how response bodies decode, how url.Parse and
minio.New behave, and the rendering of expiry timestamps.  Keeping the
decoders abstract leaves the JSON wire format of responses out of scope
while the control flow around them is embedded faithfully. -/
structure NetEnv where
  listDo : DoResult
  deleteBucketDo : DoResult
  createBucketDo : DoResult
  createKeyDo : DoResult
  deleteKeyDo : DoResult
  signInDo : DoResult
  decodeBucketList : String → Except GoError (Option (List S3BucketData))
  decodeCreateBucket : String → Except GoError S3BucketCreateResponse
  decodeAccessKey : String → Except GoError S3AccessKeyResponse
  decodeAuth : String → Except GoError AuthResponse
  parseURL : String → Except GoError ParsedURL
  minioNew : String → String → String → Bool → Except GoError MinioClient
  formatTime : Int → String

/-- Nanoseconds per second, as in time.Duration. -/
def nsPerSecond : Int := 1000000000

/-- The five minute bucket cache window of getCachedBucketList. -/
def cacheTimeoutNs : Int := 5 * 60 * nsPerSecond

/-- The 24 hour expiry requested for temporary access keys. -/
def hours24Ns : Int := 24 * 60 * 60 * nsPerSecond

/-! ## Bucket list cache and bucket operations (part_000) -/

/-- Embedding of Client.getCachedBucketList: serve the cached slice when it
was fetched less than five minutes ago and is not nil, otherwise GET the
container listing, decode it, and replace the cache wholesale together with
a fresh timestamp.  The returned trace lists the HTTP calls issued. -/
def getCachedBucketList (env : NetEnv) (now : Int) (c : Client) :
    Except GoError (List S3BucketData) × Client × List NetCall :=
  if now - c.bucketCacheTime < cacheTimeoutNs ∧ c.bucketCache.isSome = true then
    (.ok (c.bucketCache.getD []), c, [])
  else
    let url := c.EndpointURL ++ "/api/v4/org/containers"
    match doRequest env.listDo with
    | .error e =>
      (.error (.mkError ("error executing request: " ++ e.message)), c, [NetCall.get url])
    | .ok body =>
      match env.decodeBucketList body with
      | .error e =>
        (.error (.mkError ("error unmarshalling S3 bucket response: " ++ e.message)), c, [NetCall.get url])
      | .ok data =>
        (.ok (data.getD []), { c with bucketCache := data, bucketCacheTime := now }, [NetCall.get url])

/-- Embedding of Client.GetS3Bucket: fetch the (possibly cached) bucket
list and scan it linearly for the first record with the requested name,
failing with the distinguished not found error when absent. -/
def GetS3Bucket (env : NetEnv) (now : Int) (bucketName : String) (c : Client) :
    Except GoError S3BucketData × Client × List NetCall :=
  match getCachedBucketList env now c with
  | (.error e, c', calls) => (.error e, c', calls)
  | (.ok buckets, c', calls) =>
    match buckets.find? (fun b => b.Name == bucketName) with
    | some b => (.ok b, c', calls)
    | none => (.error (.mkError ("bucket " ++ bucketName ++ " not found")), c', calls)

/-- Embedding of isTimeoutError: the context.DeadlineExceeded sentinel, a
net.Error whose Timeout method is true, or an error text containing one of
the three timeout substrings; nil is never a timeout. -/
def isTimeoutError (err : Option GoError) : Bool :=
  match err with
  | none => false
  | some .deadlineExceeded => true
  | some (.netTimeoutErr _) => true
  | some e =>
    strContains e.message "timeout" ||
    strContains e.message "deadline exceeded" ||
    strContains e.message "Client.Timeout exceeded"

/-! ## Bucket creation request marshaling (claim C10) -/

/-- S3BucketCreateRetentionSetting from the source; both fields are always
emitted (no omitempty). -/
structure S3BucketCreateRetentionSetting where
  Mode : String
  Days : Int

/-- S3BucketCreateObjectLock from the source; the retention setting pointer
carries omitempty and is dropped when nil. -/
structure S3BucketCreateObjectLock where
  Enabled : Bool
  DefaultRetentionSetting : Option S3BucketCreateRetentionSetting

/-- S3BucketCreateRequest from the source; the object lock pointer carries
omitempty and is dropped when nil. -/
structure S3BucketCreateRequest where
  Name : String
  Region : String
  S3ObjectLock : Option S3BucketCreateObjectLock

/-- Default encoding of S3BucketCreateRetentionSetting, in struct field
order. -/
def marshalS3BucketCreateRetentionSetting (r : S3BucketCreateRetentionSetting) : Json :=
  .jobj [("mode", .jstr r.Mode), ("days", .jnum r.Days)]

/-- Default encoding of S3BucketCreateObjectLock, in struct field order,
omitting a nil retention setting. -/
def marshalS3BucketCreateObjectLock (ol : S3BucketCreateObjectLock) : Json :=
  .jobj ([("enabled", .jbool ol.Enabled)] ++
    (match ol.DefaultRetentionSetting with
     | none => []
     | some r => [("defaultRetentionSetting", marshalS3BucketCreateRetentionSetting r)]))

/-- Default encoding of S3BucketCreateRequest, in struct field order,
omitting a nil object lock configuration. -/
def marshalS3BucketCreateRequest (r : S3BucketCreateRequest) : Json :=
  .jobj ([("name", .jstr r.Name), ("region", .jstr r.Region)] ++
    (match r.S3ObjectLock with
     | none => []
     | some ol => [("s3ObjectLock", marshalS3BucketCreateObjectLock ol)]))

/-- Embedding of Client.CreateS3Bucket: build the create request (always
with an s3ObjectLock section; a governance one day default retention is
added exactly when object lock is enabled), POST it, decode, require a
success status, and clear the bucket cache on success. -/
def CreateS3Bucket (env : NetEnv) (bucketName region : String) (objectLockEnabled : Bool) (c : Client) :
    Option GoError × Client × List NetCall :=
  let url := c.EndpointURL ++ "/api/v4/org/containers"
  let createRequest : S3BucketCreateRequest :=
    { Name := bucketName
      Region := region
      S3ObjectLock :=
        if objectLockEnabled then
          some { Enabled := true
                 DefaultRetentionSetting := some { Mode := "governance", Days := 1 } }
        else
          some { Enabled := false, DefaultRetentionSetting := none } }
  let requestBody := marshalS3BucketCreateRequest createRequest
  let calls := [NetCall.post url requestBody]
  let out : Option GoError × Client :=
    match doRequest env.createBucketDo with
    | .error e => (some (.mkError ("error executing request: " ++ e.message)), c)
    | .ok body =>
      match env.decodeCreateBucket body with
      | .error e => (some (.mkError ("error unmarshalling bucket create response: " ++ e.message)), c)
      | .ok apiResponse =>
        if apiResponse.Status ≠ "success" then
          (some (.mkError ("bucket creation failed with status: " ++ apiResponse.Status)), c)
        else
          (none, { c with bucketCache := none, bucketCacheTime := 0 })
  (out.1, out.2, calls)

/-! ## Delete with timeout reconciliation (claim C1) -/

/-- Embedding of Client.DeleteS3Bucket: issue the DELETE; on a
timeout-classified error sleep two seconds (modelled by querying at time
now plus two seconds) and re-query the bucket; when the re-query error
contains the not found marker the delete is treated as successful and the
cache is cleared, otherwise the wrapped original error is returned; a
successful DELETE also clears the cache. -/
def DeleteS3Bucket (env : NetEnv) (now : Int) (bucketName : String) (c : Client) :
    Except GoError Unit × Client × List NetCall :=
  let url := c.EndpointURL ++ "/api/v4/org/containers/" ++ bucketName
  match doRequest env.deleteBucketDo with
  | .error err =>
    if isTimeoutError (some err) then
      match GetS3Bucket env (now + 2 * nsPerSecond) bucketName c with
      | (.error checkErr, c', calls) =>
        if strContains checkErr.message "not found" then
          (.ok (), { c' with bucketCache := none, bucketCacheTime := 0 }, NetCall.del url :: calls)
        else
          (.error (.mkError ("error executing DELETE request: " ++ err.message)), c', NetCall.del url :: calls)
      | (.ok _, c', calls) =>
        (.error (.mkError ("error executing DELETE request: " ++ err.message)), c', NetCall.del url :: calls)
    else
      (.error (.mkError ("error executing DELETE request: " ++ err.message)), c, [NetCall.del url])
  | .ok _ =>
    (.ok (), { c with bucketCache := none, bucketCacheTime := 0 }, [NetCall.del url])

/-! ## Temporary S3 credential manager (claims C2, C8, C9) -/

/-- Embedding of Client.GetS3EndpointURL: a hardcoded textual rewrite of
the first occurrence of the management port 9443 to the S3 port 10443. -/
def GetS3EndpointURL (c : Client) : String :=
  strReplaceFirst c.EndpointURL ":9443" ":10443"

/-- Embedding of Client.createTemporaryAccessKey: POST a request whose body
asks for an expiry 24 hours in the future, decode the response, and require
a success status. -/
def createTemporaryAccessKey (env : NetEnv) (now : Int) (c : Client) :
    Except GoError s3AccessKey × List NetCall :=
  let url := c.EndpointURL ++ "/api/v4/org/users/current-user/s3-access-keys"
  let requestBody := Json.jobj [("expires", .jstr (env.formatTime (now + hours24Ns)))]
  let calls := [NetCall.post url requestBody]
  let out : Except GoError s3AccessKey :=
    match doRequest env.createKeyDo with
    | .error e => .error (.mkError ("error executing access key request: " ++ e.message))
    | .ok body =>
      match env.decodeAccessKey body with
      | .error e => .error (.mkError ("error unmarshalling access key response: " ++ e.message))
      | .ok response =>
        if response.Status ≠ "success" then
          .error (.mkError ("access key creation failed with status: " ++ response.Status))
        else
          .ok response.Data
  (out, calls)

/-- Embedding of Client.deleteAccessKey: DELETE the access key resource. -/
def deleteAccessKey (env : NetEnv) (accessKeyID : String) (c : Client) :
    Option GoError × List NetCall :=
  let url := c.EndpointURL ++ "/api/v4/org/users/current-user/s3-access-keys/" ++ accessKeyID
  match doRequest env.deleteKeyDo with
  | .error e => (some (.mkError ("error executing delete access key request: " ++ e.message)), [NetCall.del url])
  | .ok _ => (none, [NetCall.del url])

/-- Embedding of Client.GetS3Client: return the cached minio client when
present; otherwise create a temporary access key, parse the derived S3
endpoint, build a minio client with the static credential, and cache both
the client and the key. -/
def GetS3Client (env : NetEnv) (now : Int) (c : Client) :
    Except GoError MinioClient × Client × List NetCall :=
  match c.s3Client with
  | some m => (.ok m, c, [])
  | none =>
    let created := createTemporaryAccessKey env now c
    let calls := created.2
    match created.1 with
    | .error e =>
      (.error (.mkError ("failed to create temporary access key: " ++ e.message)), c, calls)
    | .ok accessKey =>
      match env.parseURL (GetS3EndpointURL c) with
      | .error e =>
        (.error (.mkError ("failed to parse S3 endpoint URL: " ++ e.message)), c, calls)
      | .ok parsedURL =>
        match env.minioNew parsedURL.host accessKey.AccessKey accessKey.SecretKey (parsedURL.scheme == "https") with
        | .error e =>
          (.error (.mkError ("failed to create MinIO client: " ++ e.message)), c, calls)
        | .ok minioClient =>
          (.ok minioClient, { c with s3Client := some minioClient, s3AccessKey := some accessKey }, calls)

/-- Embedding of Client.clearS3ClientCache: when a temporary key is cached,
delete it via the API (a failure of that call is only logged), then clear
both cache entries. -/
def clearS3ClientCache (env : NetEnv) (c : Client) : Client × List NetCall :=
  match c.s3AccessKey with
  | some key =>
    let deleted := deleteAccessKey env key.ID c
    ({ c with s3Client := none, s3AccessKey := none }, deleted.2)
  | none =>
    ({ c with s3Client := none, s3AccessKey := none }, [])

/-- Embedding of the inline authorization-class error test of
executeS3Operation. -/
def isS3AuthError (e : GoError) : Bool :=
  strContains e.message "AccessDenied" ||
  strContains e.message "InvalidAccessKey" ||
  strContains e.message "TokenRefreshRequired" ||
  strContains e.message "ExpiredToken"

/-- Embedding of Client.executeS3Operation: run the operation against the
(possibly newly created) cached client; on an authorization-class failure
clear the cache, acquire a fresh client, and retry the operation exactly
once, wrapping a retry failure; any other failure is surfaced unchanged. -/
def executeS3Operation (env : NetEnv) (now : Int) (operation : MinioClient → Option GoError) (c : Client) :
    Option GoError × Client × List NetCall :=
  match GetS3Client env now c with
  | (.error e, c1, t1) =>
    (some (.mkError ("failed to get S3 client: " ++ e.message)), c1, t1)
  | (.ok client, c1, t1) =>
    match operation client with
    | none => (none, c1, t1 ++ [NetCall.s3call client])
    | some e =>
      if isS3AuthError e then
        match clearS3ClientCache env c1 with
        | (c2, t2) =>
          match GetS3Client env now c2 with
          | (.error retryErr, c3, t3) =>
            (some (.mkError ("failed to refresh S3 client after auth error: " ++ retryErr.message)), c3,
             t1 ++ [NetCall.s3call client] ++ t2 ++ t3)
          | (.ok client2, c3, t3) =>
            match operation client2 with
            | some retryErr =>
              (some (.mkError ("S3 operation failed after retry: " ++ retryErr.message)), c3,
               t1 ++ [NetCall.s3call client] ++ t2 ++ t3 ++ [NetCall.s3call client2])
            | none =>
              (none, c3, t1 ++ [NetCall.s3call client] ++ t2 ++ t3 ++ [NetCall.s3call client2])
      else
        (some e, c1, t1 ++ [NetCall.s3call client])

/-- Embedding of Client.CleanupS3Client: clear the S3 client cache,
revoking the temporary key when one exists. -/
def CleanupS3Client (env : NetEnv) (c : Client) : Client × List NetCall :=
  clearS3ClientCache env c

/-! ## Session manager (claim C7) -/

/-- Embedding of Client.SignIn: marshal the payload (which cannot fail),
POST to the authorize endpoint without a bearer header, read the body,
require status exactly 200, and decode the auth response. -/
def SignIn (env : NetEnv) (c : Client) (authPayload : SignInBody) : Except GoError AuthResponse :=
  match env.signInDo with
  | .transportErr e => .error (.mkError ("error executing request: " ++ e.message))
  | .response statusCode bodyRead =>
    match bodyRead with
    | .error e => .error (.mkError ("error reading response body: " ++ e.message))
    | .ok body =>
      if statusCode ≠ 200 then
        .error (.mkError ("status: " ++ toString statusCode ++ ", body: " ++ body))
      else
        match env.decodeAuth body with
        | .error e => .error (.mkError ("error unmarshalling auth response: " ++ e.message))
        | .ok authResponse => .ok authResponse

/-- The outcome of client construction: a client, a construction error, or
a runtime panic. -/
inductive NewClientResult where
  | ok (c : Client) : NewClientResult
  | err (e : GoError) : NewClientResult
  | panicked : NewClientResult

/-- Embedding of NewClient.  The source dereferences the endpoint pointer
while building the client value before any nil check runs, so a nil
endpoint is a nil pointer dereference and panics even though the check
below lists endpoint among the guarded pointers.  With an endpoint present,
a nil accountID, username, or password yields the unauthenticated client,
and otherwise one sign in attempt decides construction. -/
def NewClient (env : NetEnv) (endpoint accountID username password : Option String) : NewClientResult :=
  match endpoint with
  | none => .panicked
  | some ep =>
    let c : Client :=
      { EndpointURL := ep, Token := "", bucketCache := none, bucketCacheTime := 0,
        s3Client := none, s3AccessKey := none }
    match username, password, accountID with
    | some u, some pw, some aid =>
      let authPayload : SignInBody :=
        { AccountID := aid, Username := u, Password := pw, Cookie := true, CsrfToken := false }
      match SignIn env c authPayload with
      | .error e => .err (.mkError ("failed to sign in: " ++ e.message))
      | .ok ar => .ok { c with Token := ar.Token }
    | _, _, _ => .ok c

/-! ## Predicates used to state the StringOrSlice characterisation -/

/-- Bool view of Except success. -/
def exceptIsOk {ε α : Type} : Except ε α → Bool
  | .ok _ => true
  | .error _ => false

/-- The array elements StringOrSlice decoding accepts: strings and nulls. -/
def sosElemOk : Json → Bool
  | .jstr _ => true
  | .jnull => true
  | _ => false

/-- The JSON documents StringOrSlice decoding accepts: a bare string, the
literal null, or an array whose elements are all strings or nulls. -/
def sosAccepted : Json → Bool
  | .jstr _ => true
  | .jnull => true
  | .jarr xs => xs.all sosElemOk
  | _ => false

/-- The string a decoded array element yields: a string element gives
itself and a null element gives the empty string, the zero value of the
freshly allocated slice slot that the null decode leaves untouched. -/
def sosElemVal : Json → String
  | .jstr s => s
  | _ => ""

/-! ## Concrete data used by the witnesses -/

/-- A concrete environment: every request succeeds, the delete of a bucket
times out at the transport, the bucket listing decodes to an empty
inventory, and the access key endpoint hands out one fixed key. -/
def envW : NetEnv :=
  { listDo := .response 200 (.ok "listbody")
    deleteBucketDo := .transportErr (.netTimeoutErr "dial tcp 10.0.0.1:9443: i/o timeout")
    createBucketDo := .response 201 (.ok "createbody")
    createKeyDo := .response 200 (.ok "keybody")
    deleteKeyDo := .response 204 (.ok "")
    signInDo := .response 200 (.ok "authbody")
    decodeBucketList := fun _ => .ok (some [])
    decodeCreateBucket := fun _ =>
      .ok { ResponseTime := "", Status := "success", APIVersion := "4", Deprecated := false,
            Data := { Name := "b", Region := "us" }, Metadata := none }
    decodeAccessKey := fun _ =>
      .ok { ResponseTime := "", Status := "success", APIVersion := "4",
            Data := { AccessKey := "AK", SecretKey := "SK", ID := "KEY1" } }
    decodeAuth := fun _ =>
      .ok { ResponseTime := "", Status := "success", APIVersion := "4", Deprecated := false,
            Token := "tok" }
    parseURL := fun _ => .ok { host := "grid.local:10443", scheme := "https" }
    minioNew := fun h ak sk sec =>
      .ok { host := h, accessKey := ak, secretKey := sk, secure := sec }
    formatTime := fun _ => "2026-10-13T00:00:00.000Z" }

/-- A freshly constructed, authenticated client with every cache empty. -/
def clientFresh : Client :=
  { EndpointURL := "https://grid.local:9443", Token := "tok", bucketCache := none,
    bucketCacheTime := 0, s3Client := none, s3AccessKey := none }

/-- The fresh client with a populated but zero-length bucket cache. -/
def clientCachedEmpty : Client :=
  { clientFresh with bucketCache := some [] }

/-- One concrete bucket record. -/
def bucketA : S3BucketData :=
  { Name := "mybucket", CreationTime := "2026-01-01T00:00:00.000Z", Region := "us-east-1",
    Compliance := none, S3ObjectLock := none, DeleteStatus := none, Replication := none }

/-- The fresh client with a one-bucket cache. -/
def clientCachedWithA : Client :=
  { clientFresh with bucketCache := some [bucketA] }

/-- The temporary key envW hands out. -/
def keyW : s3AccessKey := { AccessKey := "AK", SecretKey := "SK", ID := "KEY1" }

/-- The minio client built from keyW against the derived endpoint. -/
def minioW : MinioClient :=
  { host := "grid.local:10443", accessKey := "AK", secretKey := "SK", secure := true }

/-- The fresh client after a successful GetS3Client. -/
def clientWithS3 : Client :=
  { clientFresh with s3Client := some minioW, s3AccessKey := some keyW }

/-- An S3 operation failing with an authorization-class error. -/
def opAuthFail : MinioClient → Option GoError :=
  fun _ => some (.mkError "ExpiredToken: request token expired")

/-- An S3 operation failing with an error outside the authorization
class. -/
def opOtherFail : MinioClient → Option GoError :=
  fun _ => some (.mkError "NoSuchBucket: the bucket is absent")

/-- An S3 operation that succeeds. -/
def opOk : MinioClient → Option GoError :=
  fun _ => none

/-! ## Helper lemmas about the string utilities -/

theorem charsStartsWith_append (y z : List Char) : charsStartsWith (y ++ z) y = true := by
  induction y with
  | nil => cases z <;> rfl
  | cons b bs ih => simp [charsStartsWith, ih]

theorem charsContains_of_startsWith (s y : List Char) (h : charsStartsWith s y = true) :
    charsContains s y = true := by
  cases s with
  | nil =>
    cases y with
    | nil => rfl
    | cons b bs => simp [charsStartsWith] at h
  | cons a t => simp [charsContains, h]

theorem charsContains_cons_of_contains (a : Char) (t y : List Char)
    (h : charsContains t y = true) : charsContains (a :: t) y = true := by
  simp [charsContains, h]

theorem charsContains_append_infix (x y z : List Char) :
    charsContains (x ++ (y ++ z)) y = true := by
  induction x with
  | nil =>
    simpa using charsContains_of_startsWith (y ++ z) y (charsStartsWith_append y z)
  | cons a as ih => simpa using charsContains_cons_of_contains a (as ++ (y ++ z)) y (by simpa using ih)

theorem strContains_append_mid (pre mid post : String) :
    strContains (pre ++ mid ++ post) mid = true := by
  unfold strContains
  have h : (pre ++ mid ++ post).data = pre.data ++ (mid.data ++ post.data) := by
    rw [String.data_append, String.data_append, List.append_assoc]
  rw [h]
  exact charsContains_append_infix pre.data mid.data post.data

theorem strEqOfData (a b : String) (h : a.data = b.data) : a = b := by
  cases a
  cases b
  exact congrArg String.mk h

theorem replaceFirstChars_of_firstIndex_none (old new s : List Char)
    (h : charsFirstIndex s old = none) : replaceFirstChars old new s = s := by
  induction s with
  | nil =>
    unfold charsFirstIndex at h
    unfold replaceFirstChars
    by_cases he : old.isEmpty <;> simp [he] at h ⊢
  | cons a t ih =>
    unfold charsFirstIndex at h
    unfold replaceFirstChars
    by_cases hp : charsStartsWith (a :: t) old = true
    · simp [hp] at h
    · simp [hp] at h ⊢
      exact ih h

theorem replaceFirstChars_of_firstIndex_some (old new : List Char) :
    ∀ (s : List Char) (i : Nat), charsFirstIndex s old = some i →
      replaceFirstChars old new s = s.take i ++ new ++ s.drop (i + old.length) := by
  intro s
  induction s with
  | nil =>
    intro i h
    unfold charsFirstIndex at h
    by_cases he : old.isEmpty <;> simp [he] at h
    subst h
    have he' : old = [] := by
      cases old with
      | nil => rfl
      | cons x xs => simp [List.isEmpty] at he
    simp [replaceFirstChars, he, he']
  | cons a t ih =>
    intro i h
    unfold charsFirstIndex at h
    unfold replaceFirstChars
    by_cases hp : charsStartsWith (a :: t) old = true
    · simp [hp] at h ⊢
      subst h
      simp
    · simp [hp] at h ⊢
      obtain ⟨j, hj, hij⟩ := h
      subst hij
      rw [ih j hj]
      have : j + 1 + old.length = (j + old.length) + 1 := by omega
      rw [this]
      simp [List.take_cons, List.drop_succ_cons]

/-! ## Claim theorems -/

/-- C6: for every HTTP response received by doRequest, a status code in
[200,300) yields the full response body and no error, and a status code
outside [200,300) yields an error that embeds both the status code and the
raw response body, with no body returned. -/
theorem C6_doRequest_status_classification (statusCode : Int) (body : String) :
    (200 ≤ statusCode → statusCode < 300 →
      doRequest (.response statusCode (.ok body)) = .ok body)
    ∧ (statusCode < 200 ∨ 300 ≤ statusCode →
      doRequest (.response statusCode (.ok body)) =
        .error (.mkError ("status: " ++ toString statusCode ++ ", body: " ++ body)) ∧
      strContains ("status: " ++ toString statusCode ++ ", body: " ++ body) (toString statusCode) = true ∧
      strContains ("status: " ++ toString statusCode ++ ", body: " ++ body) body = true) := by
  constructor
  · intro h1 h2
    show (if statusCode < 200 ∨ statusCode ≥ 300 then _ else _) = _
    rw [if_neg (by omega)]
  · intro h
    refine ⟨?_, ?_, ?_⟩
    · show (if statusCode < 200 ∨ statusCode ≥ 300 then _ else _) = _
      rw [if_pos (show statusCode < 200 ∨ statusCode ≥ 300 from h)]
    · have := strContains_append_mid "status: " (toString statusCode) (", body: " ++ body)
      rwa [← String.append_assoc] at this
    · have := strContains_append_mid ("status: " ++ toString statusCode ++ ", body: ") body ""
      rwa [String.append_empty] at this

/-- Witness for C6 at status 200 with body payload and status 404 with
body nope. -/
theorem C6_doRequest_status_classification_witness :
    doRequest (.response 200 (.ok "payload")) = .ok "payload"
    ∧ doRequest (.response 404 (.ok "nope")) = .error (.mkError "status: 404, body: nope") := by
  constructor
  · exact (C6_doRequest_status_classification 200 "payload").1 (by decide) (by decide)
  · exact ((C6_doRequest_status_classification 404 "nope").2 (by decide)).1

/-- C10: the bucket creation request body always carries an s3ObjectLock
object; with object lock enabled it has enabled true and a default
retention setting of mode governance and days 1, and with object lock
disabled it has enabled false and no default retention setting. -/
theorem C10_create_bucket_object_lock_body (env : NetEnv) (bucketName region : String) (c : Client) :
    (CreateS3Bucket env bucketName region true c).2.2 =
      [NetCall.post (c.EndpointURL ++ "/api/v4/org/containers")
        (Json.jobj [("name", .jstr bucketName), ("region", .jstr region),
          ("s3ObjectLock", Json.jobj [("enabled", .jbool true),
            ("defaultRetentionSetting",
              Json.jobj [("mode", .jstr "governance"), ("days", .jnum 1)])])])]
    ∧ (CreateS3Bucket env bucketName region false c).2.2 =
      [NetCall.post (c.EndpointURL ++ "/api/v4/org/containers")
        (Json.jobj [("name", .jstr bucketName), ("region", .jstr region),
          ("s3ObjectLock", Json.jobj [("enabled", .jbool false)])])] :=
  ⟨rfl, rfl⟩

/-- C7: the code dereferences the endpoint pointer before its nil check, so
a nil endpoint makes NewClient panic instead of returning the
unauthenticated client the claim (and the code comment above the check)
describes. -/
theorem C7_newClient_nil_endpoint_panics (env : NetEnv) (accountID username password : Option String) :
    NewClient env none accountID username password = .panicked :=
  rfl

/-- C9: cleanup with no cached credential issues no revocation call,
returns normally, and leaves both S3 cache entries nil. -/
theorem C9_cleanup_without_credential (env : NetEnv) (c : Client)
    (h : c.s3AccessKey = none) :
    clearS3ClientCache env c = ({ c with s3Client := none, s3AccessKey := none }, [])
    ∧ CleanupS3Client env c = ({ c with s3Client := none, s3AccessKey := none }, []) := by
  constructor <;> simp [clearS3ClientCache, CleanupS3Client, h]

/-- Witness for C9 on the fresh client, which has no credential. -/
theorem C9_cleanup_without_credential_witness :
    clearS3ClientCache envW clientFresh = (clientFresh, [])
    ∧ CleanupS3Client envW clientFresh = (clientFresh, []) :=
  C9_cleanup_without_credential envW clientFresh rfl

theorem goDecodeStringElems_map_jstr (ss : List String) :
    goDecodeStringElems (ss.map .jstr) = some ss := by
  induction ss with
  | nil => rfl
  | cons s rest ih => simp [goDecodeStringElems, goUnmarshalAsString, ih]

theorem goDecodeStringElems_isSome_eq_all (xs : List Json) :
    (goDecodeStringElems xs).isSome = xs.all sosElemOk := by
  induction xs with
  | nil => rfl
  | cons x rest ih =>
    cases x <;>
      simp [goDecodeStringElems, goUnmarshalAsString, sosElemOk, ← ih] <;>
      cases goDecodeStringElems rest <;> simp

/-- C4 counterexample: the JSON literal null is neither a bare string nor
an array of strings, yet StringOrSlice decoding accepts it and yields the
one-element sequence holding the empty string, because json.Unmarshal
treats null as a no-op on a fresh string variable; the claim says every
such value is rejected with an error. -/
theorem C4_stringOrSlice_counterexample :
    StringOrSliceUnmarshalJSON Json.jnull = .ok [""] :=
  rfl

theorem goDecodeStringElems_of_all (xs : List Json) (h : xs.all sosElemOk = true) :
    goDecodeStringElems xs = some (xs.map sosElemVal) := by
  induction xs with
  | nil => rfl
  | cons x rest ih =>
    rw [List.all_cons, Bool.and_eq_true] at h
    obtain ⟨hx, hrest⟩ := h
    cases x with
    | jstr s => simp [goDecodeStringElems, goUnmarshalAsString, sosElemVal, ih hrest]
    | jnull => simp [goDecodeStringElems, goUnmarshalAsString, sosElemVal, ih hrest]
    | jbool b => simp [sosElemOk] at hx
    | jnum n => simp [sosElemOk] at hx
    | jarr ys => simp [sosElemOk] at hx
    | jobj fields => simp [sosElemOk] at hx

/-- C4 amended: a bare JSON string decodes to the one-element sequence; an
array whose elements are all strings or nulls decodes elementwise in
order, a string element to itself and a null element to the empty string
(in particular an array of N strings decodes to the same N-element
sequence); the JSON literal null decodes to the sequence holding the empty
string; decoding succeeds exactly on those shapes and is rejected with an
error on every other JSON value; and Go default slice encoding emits every
non-nil StringOrSlice (every decode result included) in JSON array form,
never as a bare string, while the nil slice is emitted as JSON null. -/
theorem C4_stringOrSlice_amended :
    (∀ s : String, StringOrSliceUnmarshalJSON (.jstr s) = .ok [s])
    ∧ (∀ ss : List String, StringOrSliceUnmarshalJSON (.jarr (ss.map .jstr)) = .ok ss)
    ∧ StringOrSliceUnmarshalJSON .jnull = .ok [""]
    ∧ (∀ xs : List Json, xs.all sosElemOk = true →
        StringOrSliceUnmarshalJSON (.jarr xs) = .ok (xs.map sosElemVal))
    ∧ (∀ j : Json, exceptIsOk (StringOrSliceUnmarshalJSON j) = sosAccepted j)
    ∧ (∀ v : List String, StringOrSliceMarshalJSON (some v) = .jarr (v.map .jstr))
    ∧ StringOrSliceMarshalJSON none = .jnull := by
  refine ⟨fun s => rfl, ?_, rfl, ?_, ?_, fun v => rfl, rfl⟩
  · intro ss
    simp [StringOrSliceUnmarshalJSON, goUnmarshalAsString, goUnmarshalAsStringSlice,
      goDecodeStringElems_map_jstr]
  · intro xs h
    simp [StringOrSliceUnmarshalJSON, goUnmarshalAsString, goUnmarshalAsStringSlice,
      goDecodeStringElems_of_all xs h]
  · intro j
    cases j with
    | jnull => rfl
    | jbool b => rfl
    | jnum n => rfl
    | jstr s => rfl
    | jobj fields => rfl
    | jarr xs =>
      have h := goDecodeStringElems_isSome_eq_all xs
      simp only [StringOrSliceUnmarshalJSON, goUnmarshalAsString, goUnmarshalAsStringSlice,
        sosAccepted]
      cases hx : goDecodeStringElems xs <;> rw [hx] at h <;> exact h

/-- Witness for C4 on an array mixing string and null elements: the null
element decodes to the empty string in place. -/
theorem C4_stringOrSlice_amended_witness :
    StringOrSliceUnmarshalJSON (Json.jarr [Json.jstr "a", Json.jnull, Json.jstr "b"]) =
      .ok ["a", "", "b"] :=
  C4_stringOrSlice_amended.2.2.2.1 [Json.jstr "a", Json.jnull, Json.jstr "b"] rfl

theorem natLog2Aux_le : ∀ (fuel k n : Nat), n < 2 ^ k → natLog2Aux fuel n ≤ k := by
  intro fuel
  induction fuel with
  | zero => intro k n _; simp [natLog2Aux]
  | succ f ih =>
    intro k n h
    unfold natLog2Aux
    by_cases h2 : n ≥ 2
    · rw [if_pos h2]
      cases k with
      | zero =>
        exfalso
        rw [pow_zero] at h
        omega
      | succ k' =>
        have hh : n / 2 < 2 ^ k' := by
          rw [pow_succ] at h
          omega
        have := ih k' (n / 2) hh
        omega
    · rw [if_neg h2]
      omega

theorem natLog2_le (n k : Nat) (h : n < 2 ^ k) : natLog2 n ≤ k :=
  natLog2Aux_le n k n h

theorem float64RoundInt_of_small (n : Int) (h0 : 0 ≤ n) (h : n < 2 ^ 53) :
    float64RoundInt n = n := by
  have e53 : (2 : Int) ^ 53 = 9007199254740992 := by norm_num
  have eN : (2 : Nat) ^ 53 = 9007199254740992 := by norm_num
  have ht : n.toNat < 2 ^ 53 := by
    rw [e53] at h
    omega
  unfold float64RoundInt float64RoundPos
  rw [if_pos h0, if_pos ht]
  exact Int.toNat_of_nonneg h0

theorem goNumberToFloat64_of_small (n : Int) (h0 : 0 ≤ n) (h : n < 2 ^ 53) :
    goNumberToFloat64 n = .ok n := by
  have hr : float64RoundInt n = n := float64RoundInt_of_small n h0 h
  have e53 : (2 : Int) ^ 53 = 9007199254740992 := by norm_num
  have eN : (2 : Nat) ^ 53 = 9007199254740992 := by norm_num
  have habs : n.natAbs < 2 ^ 53 := by
    rw [e53] at h
    omega
  have hlog : natLog2 n.natAbs ≤ 1023 := by
    have h1 := natLog2_le n.natAbs 53 habs
    omega
  unfold goNumberToFloat64
  rw [hr, if_pos hlog]

theorem retention_unmarshal_mode_days (M : String) (D : Int) :
    DefaultRetentionSettingUnmarshalJSON (.jobj [("mode", .jstr M), ("days", .jnum D)]) =
      match goNumberToFloat64 D with
      | .ok r => .ok { Mode := M, Days := r, Years := 0 }
      | .error e => .error e := by
  cases hg : goNumberToFloat64 D <;>
    simp [DefaultRetentionSettingUnmarshalJSON, retentionDecodeAux, retentionIfaceField,
      jsonLookup, retentionCoerce, hg]

theorem retention_unmarshal_mode_years (M : String) (Y : Int) :
    DefaultRetentionSettingUnmarshalJSON (.jobj [("mode", .jstr M), ("years", .jnum Y)]) =
      match goNumberToFloat64 Y with
      | .ok r => .ok { Mode := M, Days := 0, Years := r }
      | .error e => .error e := by
  cases hg : goNumberToFloat64 Y <;>
    simp [DefaultRetentionSettingUnmarshalJSON, retentionDecodeAux, retentionIfaceField,
      jsonLookup, retentionCoerce, hg]

/-- C3 counterexample: encoding/json decodes days through float64, so at
Days equal to 2 to the 53 plus 1 the marshaled exact decimal unmarshals to
the neighbouring even double 2 to the 53 and the set field is not
preserved, against the round-trip the claim states for every setting with
exactly one positive field. -/
theorem C3_retention_roundtrip_counterexample :
    DefaultRetentionSettingUnmarshalJSON
        (DefaultRetentionSettingMarshalJSON
          { Mode := "governance", Days := 9007199254740993, Years := 0 }) =
      .ok { Mode := "governance", Days := 9007199254740992, Years := 0 }
    ∧ (9007199254740992 : Int) ≠ 9007199254740993 :=
  ⟨rfl, by decide⟩

/-- C3 amended: for a retention setting in which exactly one of days and
years is positive and the set field is below 2 to the 53 (the range Go
decodes exactly through float64), marshal followed by unmarshal preserves
the mode and the set field; and whenever years is positive the marshaled
object carries a years field and no days field at all. -/
theorem C3_retention_roundtrip (d : DefaultRetentionSetting)
    (h : (0 < d.Days ∧ d.Days < 2 ^ 53 ∧ ¬ 0 < d.Years)
      ∨ (¬ 0 < d.Days ∧ 0 < d.Years ∧ d.Years < 2 ^ 53)) :
    (∃ d' : DefaultRetentionSetting,
      DefaultRetentionSettingUnmarshalJSON (DefaultRetentionSettingMarshalJSON d) = .ok d'
      ∧ d'.Mode = d.Mode
      ∧ (0 < d.Days → d'.Days = d.Days)
      ∧ (0 < d.Years → d'.Years = d.Years))
    ∧ (0 < d.Years →
        DefaultRetentionSettingMarshalJSON d =
          .jobj [("mode", .jstr d.Mode), ("years", .jnum d.Years)]) := by
  rcases h with ⟨hd, hdb, hy⟩ | ⟨hd, hy, hyb⟩
  · have hm : DefaultRetentionSettingMarshalJSON d =
        .jobj [("mode", .jstr d.Mode), ("days", .jnum d.Days)] := by
      unfold DefaultRetentionSettingMarshalJSON
      rw [if_neg hy]
    refine ⟨⟨{ Mode := d.Mode, Days := d.Days, Years := 0 }, ?_, rfl, fun _ => rfl,
      fun hy' => absurd hy' hy⟩, fun hy' => absurd hy' hy⟩
    rw [hm, retention_unmarshal_mode_days,
      goNumberToFloat64_of_small d.Days (le_of_lt hd) hdb]
  · have hm : DefaultRetentionSettingMarshalJSON d =
        .jobj [("mode", .jstr d.Mode), ("years", .jnum d.Years)] := by
      unfold DefaultRetentionSettingMarshalJSON
      rw [if_pos hy]
    refine ⟨⟨{ Mode := d.Mode, Days := 0, Years := d.Years }, ?_, rfl,
      fun hd' => absurd hd' hd, fun _ => rfl⟩, fun _ => hm⟩
    rw [hm, retention_unmarshal_mode_years,
      goNumberToFloat64_of_small d.Years (le_of_lt hy) hyb]

/-- Witness for C3 at a years-only and a days-only setting. -/
theorem C3_retention_roundtrip_witness :
    DefaultRetentionSettingUnmarshalJSON
        (DefaultRetentionSettingMarshalJSON { Mode := "compliance", Days := 0, Years := 3 }) =
      .ok { Mode := "compliance", Days := 0, Years := 3 }
    ∧ DefaultRetentionSettingMarshalJSON { Mode := "compliance", Days := 0, Years := 3 } =
      .jobj [("mode", .jstr "compliance"), ("years", .jnum 3)]
    ∧ DefaultRetentionSettingUnmarshalJSON
        (DefaultRetentionSettingMarshalJSON { Mode := "governance", Days := 7, Years := 0 }) =
      .ok { Mode := "governance", Days := 7, Years := 0 } :=
  ⟨rfl,
   (C3_retention_roundtrip { Mode := "compliance", Days := 0, Years := 3 }
     (Or.inr ⟨by decide, by decide, by decide⟩)).2 (by decide),
   rfl⟩

theorem getCachedBucketList_hit (env : NetEnv) (now : Int) (c : Client) (l : List S3BucketData)
    (h1 : now - c.bucketCacheTime < cacheTimeoutNs) (h2 : c.bucketCache = some l) :
    getCachedBucketList env now c = (.ok l, c, []) := by
  unfold getCachedBucketList
  rw [if_pos ⟨h1, by rw [h2]; rfl⟩]
  rw [h2]
  rfl

/-- C5 counterexample: a cache that is fresh but holds the empty bucket
list (the decoded inventory of a tenant with no buckets) is served without
any HTTP fetch, while the claim requires a GET in every state where the
cache is not non-empty. -/
theorem C5_bucket_cache_counterexample :
    getCachedBucketList envW 0 clientCachedEmpty = (.ok [], clientCachedEmpty, []) :=
  getCachedBucketList_hit envW 0 clientCachedEmpty [] (by decide) rfl

/-- C5 amended: the cache is served without an HTTP fetch exactly when it
was fetched less than five minutes ago and is populated (non-nil, even if
zero-length); in every other state getCachedBucketList performs a GET
against the bucket listing endpoint and, when the fetch decodes, replaces
the cache wholesale together with a fresh timestamp; GetS3Bucket inherits
the cache-hit behaviour. -/
theorem C5_bucket_cache_amended :
    (∀ (env : NetEnv) (now : Int) (c : Client) (l : List S3BucketData),
      now - c.bucketCacheTime < cacheTimeoutNs → c.bucketCache = some l →
      getCachedBucketList env now c = (.ok l, c, []))
    ∧ (∀ (env : NetEnv) (now : Int) (bucketName : String) (c : Client) (l : List S3BucketData),
      now - c.bucketCacheTime < cacheTimeoutNs → c.bucketCache = some l →
      GetS3Bucket env now bucketName c =
        ((match l.find? (fun b => b.Name == bucketName) with
          | some b => .ok b
          | none => .error (.mkError ("bucket " ++ bucketName ++ " not found"))), c, []))
    ∧ (∀ (env : NetEnv) (now : Int) (c : Client),
      ¬ (now - c.bucketCacheTime < cacheTimeoutNs ∧ c.bucketCache.isSome = true) →
      (getCachedBucketList env now c).2.2 =
        [NetCall.get (c.EndpointURL ++ "/api/v4/org/containers")]
      ∧ (∀ (body : String) (d : Option (List S3BucketData)),
          doRequest env.listDo = .ok body → env.decodeBucketList body = .ok d →
          getCachedBucketList env now c =
            (.ok (d.getD []), { c with bucketCache := d, bucketCacheTime := now },
             [NetCall.get (c.EndpointURL ++ "/api/v4/org/containers")]))) := by
  refine ⟨getCachedBucketList_hit, ?_, ?_⟩
  · intro env now bucketName c l h1 h2
    unfold GetS3Bucket
    rw [getCachedBucketList_hit env now c l h1 h2]
    cases hf : l.find? (fun b => b.Name == bucketName) <;> simp [hf]
  · intro env now c h
    constructor
    · unfold getCachedBucketList
      rw [if_neg h]
      cases hdo : doRequest env.listDo with
      | error e => simp [hdo]
      | ok body => cases hdec : env.decodeBucketList body <;> simp [hdo, hdec]
    · intro body d hdo hdec
      unfold getCachedBucketList
      rw [if_neg h]
      simp [hdo, hdec]

/-- Witness for C5 at a fresh one-bucket cache (hit, no call) and at the
fresh client with an empty cache (miss, one GET, wholesale replacement). -/
theorem C5_bucket_cache_witness :
    getCachedBucketList envW (60 * nsPerSecond) clientCachedWithA =
      (.ok [bucketA], clientCachedWithA, [])
    ∧ getCachedBucketList envW 0 clientFresh =
      (.ok [], { clientFresh with bucketCache := some [], bucketCacheTime := 0 },
       [NetCall.get "https://grid.local:9443/api/v4/org/containers"]) := by
  constructor
  · exact C5_bucket_cache_amended.1 envW (60 * nsPerSecond) clientCachedWithA [bucketA]
      (by decide) rfl
  · exact (C5_bucket_cache_amended.2.2 envW 0 clientFresh (by decide)).2 "listbody" (some [])
      rfl rfl

/-- C8 counterexample: a management endpoint on a port other than 9443 is
returned unchanged by GetS3EndpointURL, so its port is not rewritten to the
S3 port as the claim requires for every management endpoint URL; the
rewrite is a hardcoded textual replacement of the first occurrence of the
9443 port. -/
theorem C8_s3_endpoint_counterexample :
    GetS3EndpointURL { clientFresh with EndpointURL := "https://grid.local:8443" } =
      "https://grid.local:8443"
    ∧ strContains
        (GetS3EndpointURL { clientFresh with EndpointURL := "https://grid.local:8443" })
        "10443" = false :=
  ⟨rfl, rfl⟩

/-- C8 amended: GetS3EndpointURL replaces the first occurrence of the text
of the management port 9443 with the S3 port 10443: an endpoint whose first
such occurrence is its port comes back identical except for that port, and
an endpoint without the text comes back unchanged. -/
theorem C8_s3_endpoint_amended :
    (∀ c : Client,
      charsFirstIndex c.EndpointURL.data (":9443" : String).data = none →
      GetS3EndpointURL c = c.EndpointURL)
    ∧ (∀ (c : Client) (pre post : String),
      c.EndpointURL = pre ++ ":9443" ++ post →
      charsFirstIndex c.EndpointURL.data (":9443" : String).data = some pre.length →
      GetS3EndpointURL c = pre ++ ":10443" ++ post) := by
  constructor
  · intro c h
    unfold GetS3EndpointURL strReplaceFirst
    rw [replaceFirstChars_of_firstIndex_none _ _ _ h]
  · intro c pre post he hidx
    rw [he] at hidx
    unfold GetS3EndpointURL strReplaceFirst
    rw [he]
    apply strEqOfData
    show replaceFirstChars (":9443" : String).data (":10443" : String).data
        (pre ++ ":9443" ++ post).data = (pre ++ ":10443" ++ post).data
    rw [replaceFirstChars_of_firstIndex_some _ _ _ pre.length hidx]
    have hu : (pre ++ ":9443" ++ post).data =
        pre.data ++ ((":9443" : String).data ++ post.data) := by
      rw [String.data_append, String.data_append, List.append_assoc]
    have hlen : pre.length = pre.data.length := rfl
    rw [hu, hlen]
    have htake : (pre.data ++ ((":9443" : String).data ++ post.data)).take pre.data.length
        = pre.data := List.take_left pre.data _
    have hdrop : (pre.data ++ ((":9443" : String).data ++ post.data)).drop
        (pre.data.length + (":9443" : String).data.length) = post.data := by
      rw [← List.append_assoc, ← List.length_append]
      exact List.drop_left _ _
    rw [htake, hdrop, String.data_append, String.data_append]

/-- Witness for C8 on the fresh client endpoint and on an endpoint without
the management port text. -/
theorem C8_s3_endpoint_witness :
    GetS3EndpointURL clientFresh = "https://grid.local:10443"
    ∧ GetS3EndpointURL { clientFresh with EndpointURL := "http://grid.other" } =
      "http://grid.other" := by
  constructor
  · exact C8_s3_endpoint_amended.2 clientFresh "https://grid.local" "" rfl (by decide)
  · exact C8_s3_endpoint_amended.1 { clientFresh with EndpointURL := "http://grid.other" }
      (by decide)

/-- C1: when the DELETE fails with a timeout-classified error, the
reconciler waits the two second grace interval (the re-query runs at time
now plus two seconds) and re-queries the bucket by name; a re-query error
carrying the not found marker makes the delete succeed with the bucket
cache cleared to empty entries and a zero timestamp, and any other re-query
outcome propagates the original timeout error wrapped in the DELETE error
text. -/
theorem C1_delete_timeout_reconciler (env : NetEnv) (now : Int) (bucketName : String)
    (c : Client) (e : GoError)
    (hDel : doRequest env.deleteBucketDo = .error e)
    (hTO : isTimeoutError (some e) = true) :
    (∀ (checkErr : GoError) (c' : Client) (calls : List NetCall),
      GetS3Bucket env (now + 2 * nsPerSecond) bucketName c = (.error checkErr, c', calls) →
      strContains checkErr.message "not found" = true →
      DeleteS3Bucket env now bucketName c =
        (.ok (), { c' with bucketCache := none, bucketCacheTime := 0 },
         NetCall.del (c.EndpointURL ++ "/api/v4/org/containers/" ++ bucketName) :: calls))
    ∧ (∀ (checkErr : GoError) (c' : Client) (calls : List NetCall),
      GetS3Bucket env (now + 2 * nsPerSecond) bucketName c = (.error checkErr, c', calls) →
      strContains checkErr.message "not found" = false →
      DeleteS3Bucket env now bucketName c =
        (.error (.mkError ("error executing DELETE request: " ++ e.message)), c',
         NetCall.del (c.EndpointURL ++ "/api/v4/org/containers/" ++ bucketName) :: calls))
    ∧ (∀ (b : S3BucketData) (c' : Client) (calls : List NetCall),
      GetS3Bucket env (now + 2 * nsPerSecond) bucketName c = (.ok b, c', calls) →
      DeleteS3Bucket env now bucketName c =
        (.error (.mkError ("error executing DELETE request: " ++ e.message)), c',
         NetCall.del (c.EndpointURL ++ "/api/v4/org/containers/" ++ bucketName) :: calls)) := by
  refine ⟨?_, ?_, ?_⟩
  · intro checkErr c' calls hGet hCont
    unfold DeleteS3Bucket
    rw [hDel]
    simp only [hTO, if_true]
    rw [hGet]
    simp [hCont]
  · intro checkErr c' calls hGet hCont
    unfold DeleteS3Bucket
    rw [hDel]
    simp only [hTO, if_true]
    rw [hGet]
    simp [hCont]
  · intro b c' calls hGet
    unfold DeleteS3Bucket
    rw [hDel]
    simp only [hTO, if_true]
    rw [hGet]

/-- Witness for C1: a timed-out DELETE whose re-query reports not found
succeeds with a cleared cache, and one whose re-query still finds the
bucket propagates the wrapped timeout error. -/
theorem C1_delete_timeout_reconciler_witness :
    DeleteS3Bucket envW 0 "mybucket" clientCachedEmpty =
      (.ok (), clientFresh,
       [NetCall.del "https://grid.local:9443/api/v4/org/containers/mybucket"])
    ∧ DeleteS3Bucket envW 0 "mybucket" clientCachedWithA =
      (.error (.mkError "error executing DELETE request: dial tcp 10.0.0.1:9443: i/o timeout"),
       clientCachedWithA,
       [NetCall.del "https://grid.local:9443/api/v4/org/containers/mybucket"]) := by
  constructor
  · exact (C1_delete_timeout_reconciler envW 0 "mybucket" clientCachedEmpty
      (.netTimeoutErr "dial tcp 10.0.0.1:9443: i/o timeout") rfl rfl).1
      (.mkError "bucket mybucket not found") clientCachedEmpty [] rfl (by decide)
  · exact (C1_delete_timeout_reconciler envW 0 "mybucket" clientCachedWithA
      (.netTimeoutErr "dial tcp 10.0.0.1:9443: i/o timeout") rfl rfl).2.2
      bucketA clientCachedWithA [] rfl

theorem GetS3Client_trace_of_no_cache (env : NetEnv) (now : Int) (c : Client)
    (h : c.s3Client = none) :
    (GetS3Client env now c).2.2 =
      [NetCall.post (c.EndpointURL ++ "/api/v4/org/users/current-user/s3-access-keys")
        (Json.jobj [("expires", .jstr (env.formatTime (now + hours24Ns)))])] := by
  simp only [GetS3Client, h]
  split
  · rfl
  · split
    · rfl
    · split <;> rfl

/-- C2: when the operation fails with an authorization-class error the
manager clears both cache entries, revokes and re-acquires exactly one
fresh temporary credential (one POST to the access key endpoint), and
retries the operation exactly once, failing only if the re-acquisition or
the retry fails; a failure outside the authorization class is surfaced
unchanged with no retry, and a success triggers no retry. -/
theorem C2_s3_auth_retry :
    (∀ (env : NetEnv) (now : Int) (op : MinioClient → Option GoError) (c : Client)
       (client : MinioClient) (c1 : Client) (t1 : List NetCall) (e : GoError),
      GetS3Client env now c = (.ok client, c1, t1) →
      op client = some e →
      isS3AuthError e = true →
      ∀ (c2 : Client) (t2 : List NetCall),
        clearS3ClientCache env c1 = (c2, t2) →
        c2.s3Client = none ∧ c2.s3AccessKey = none
        ∧ (∀ (client2 : MinioClient) (c3 : Client) (t3 : List NetCall),
            GetS3Client env now c2 = (.ok client2, c3, t3) →
            t3 = [NetCall.post (c2.EndpointURL ++ "/api/v4/org/users/current-user/s3-access-keys")
                    (Json.jobj [("expires", .jstr (env.formatTime (now + hours24Ns)))])]
            ∧ executeS3Operation env now op c =
                ((match op client2 with
                  | none => none
                  | some r => some (.mkError ("S3 operation failed after retry: " ++ r.message))),
                 c3, t1 ++ [NetCall.s3call client] ++ t2 ++ t3 ++ [NetCall.s3call client2]))
        ∧ (∀ (re : GoError) (c3 : Client) (t3 : List NetCall),
            GetS3Client env now c2 = (.error re, c3, t3) →
            executeS3Operation env now op c =
              (some (.mkError ("failed to refresh S3 client after auth error: " ++ re.message)),
               c3, t1 ++ [NetCall.s3call client] ++ t2 ++ t3)))
    ∧ (∀ (env : NetEnv) (now : Int) (op : MinioClient → Option GoError) (c : Client)
       (client : MinioClient) (c1 : Client) (t1 : List NetCall) (e : GoError),
      GetS3Client env now c = (.ok client, c1, t1) →
      op client = some e →
      isS3AuthError e = false →
      executeS3Operation env now op c = (some e, c1, t1 ++ [NetCall.s3call client]))
    ∧ (∀ (env : NetEnv) (now : Int) (op : MinioClient → Option GoError) (c : Client)
       (client : MinioClient) (c1 : Client) (t1 : List NetCall),
      GetS3Client env now c = (.ok client, c1, t1) →
      op client = none →
      executeS3Operation env now op c = (none, c1, t1 ++ [NetCall.s3call client])) := by
  refine ⟨?_, ?_, ?_⟩
  · intro env now op c client c1 t1 e hGet hOp hAuth c2 t2 hClear
    have hc2 : c2 = { c1 with s3Client := none, s3AccessKey := none } := by
      have h1 := congrArg Prod.fst hClear
      simp only at h1
      rw [← h1]
      cases hk : c1.s3AccessKey <;> simp [clearS3ClientCache, hk]
    subst hc2
    refine ⟨rfl, rfl, ?_, ?_⟩
    · intro client2 c3 t3 hGet2
      have ht3 : t3 = [NetCall.post
          (c1.EndpointURL ++ "/api/v4/org/users/current-user/s3-access-keys")
          (Json.jobj [("expires", .jstr (env.formatTime (now + hours24Ns)))])] := by
        have h' := congrArg (fun p => p.2.2) hGet2
        simp only at h'
        rw [GetS3Client_trace_of_no_cache env now _ rfl] at h'
        exact h'.symm
      refine ⟨ht3, ?_⟩
      simp only [executeS3Operation, hGet, hOp, hAuth, if_true, hClear, hGet2]
      cases hop2 : op client2 <;> simp [hop2]
    · intro re c3 t3 hGet2
      simp only [executeS3Operation, hGet, hOp, hAuth, if_true, hClear, hGet2]
  · intro env now op c client c1 t1 e hGet hOp hAuth
    simp [executeS3Operation, hGet, hOp, hAuth]
  · intro env now op c client c1 t1 hGet hOp
    simp [executeS3Operation, hGet, hOp]

/-- Witness for C2: an authorization-class failure is retried once and the
retry failure is wrapped, a non-authorization failure is surfaced
unchanged, and a success is returned as is. -/
theorem C2_s3_auth_retry_witness :
    (executeS3Operation envW 0 opAuthFail clientFresh).1 =
      some (.mkError "S3 operation failed after retry: ExpiredToken: request token expired")
    ∧ (executeS3Operation envW 0 opOtherFail clientFresh).1 =
      some (.mkError "NoSuchBucket: the bucket is absent")
    ∧ (executeS3Operation envW 0 opOk clientFresh).1 = none := by
  obtain ⟨hA, hB, hC⟩ := C2_s3_auth_retry
  refine ⟨?_, ?_, ?_⟩
  · have h := ((hA envW 0 opAuthFail clientFresh minioW clientWithS3
        [NetCall.post "https://grid.local:9443/api/v4/org/users/current-user/s3-access-keys"
          (Json.jobj [("expires", Json.jstr "2026-10-13T00:00:00.000Z")])]
        (.mkError "ExpiredToken: request token expired") rfl rfl rfl
        clientFresh
        [NetCall.del "https://grid.local:9443/api/v4/org/users/current-user/s3-access-keys/KEY1"]
        rfl).2.2.1 minioW clientWithS3
        [NetCall.post "https://grid.local:9443/api/v4/org/users/current-user/s3-access-keys"
          (Json.jobj [("expires", Json.jstr "2026-10-13T00:00:00.000Z")])]
        rfl).2
    rw [h]
    rfl
  · have h := hB envW 0 opOtherFail clientFresh minioW clientWithS3
        [NetCall.post "https://grid.local:9443/api/v4/org/users/current-user/s3-access-keys"
          (Json.jobj [("expires", Json.jstr "2026-10-13T00:00:00.000Z")])]
        (.mkError "NoSuchBucket: the bucket is absent") rfl rfl rfl
    rw [h]
  · have h := hC envW 0 opOk clientFresh minioW clientWithS3
        [NetCall.post "https://grid.local:9443/api/v4/org/users/current-user/s3-access-keys"
          (Json.jobj [("expires", Json.jstr "2026-10-13T00:00:00.000Z")])]
        rfl rfl
    rw [h]
